import Mathlib

/-!
Verification of the ReachCraftAI batch mailer (Flask app: app.py,
excel_processor.py, email_generator.py, email_sender.py, config.py).

Shallow embedding conventions:
* Python strings are `List Char` (abbreviated `Str`); literals are written
  through `strData`.
* I/O-free logic is translated directly; external effects (the SMTP session,
  the Gemini call, the filesystem) are passed in as explicit parameters
  (`NetOutcome`, `GenResp`, the log-file contents as a `Str`).
* `Option`/sum types model Python `None` and exception outcomes; every
  Python `except` clause is a constructor of the corresponding outcome type,
  so totality of the Lean functions embeds "never raises to the caller".
-/

namespace ReachCraft

/-- Python strings are modelled as lists of characters. -/
abbrev Str := List Char

/-- Embed a Lean string literal as a `Str`. -/
def strData (s : String) : Str := s.data

/-- The apostrophe character (used by Python's `repr` of `KeyError`). -/
def apos : Char := Char.ofNat 39

/-- Characters removed by Python's `str.strip()` (ASCII whitespace). -/
def isPySpace (c : Char) : Bool :=
  c = ' ' || c = '\t' || c = '\n' || c = '\r' || c = Char.ofNat 11 || c = Char.ofNat 12

/-- Python `str.strip()`: drop leading and trailing whitespace. -/
def pyStrip (s : Str) : Str :=
  ((s.dropWhile isPySpace).reverse.dropWhile isPySpace).reverse

/-- Python `str.lower()` (ASCII case folding, which is all the repo uses). -/
def pyLower (s : Str) : Str := s.map Char.toLower

/-- Python `needle in haystack` prefix test helper: does `s` start with `pat`? -/
def strStartsWith : Str → Str → Bool
  | _, [] => true
  | [], _ :: _ => false
  | c :: cs, p :: ps => (c = p) && strStartsWith cs ps

/-- Python substring test `pat in hay` (empty pattern is contained everywhere). -/
def strContainsSub (hay pat : Str) : Bool :=
  match hay with
  | [] => strStartsWith [] pat
  | _ :: rest => strStartsWith hay pat || strContainsSub rest pat

/-- Truthiness of an optional Python string (`None` and `""` are falsy). -/
def optTruthy : Option Str → Bool
  | none => false
  | some s => !s.isEmpty

/-- Python `f"{x}"` for an optional string (`None` prints as `None`). -/
def optStr : Option Str → Str
  | none => strData "None"
  | some s => s

/-- Python `f"{n}"` for the SMTP port (an `int` in `config.py`). -/
def intStr (n : Int) : Str := (toString n).data

/-!
## email_sender.py — `send_email`

SMTP configuration is read from `config.py` (environment variables, so
host/sender are `Option Str`, port is an `Int` with a default of 587).
The actual SMTP session is external; its outcome is a parameter
(`NetOutcome`), one constructor per `except` clause of the source, carrying
the stringified exception text that the source interpolates into messages.
-/

/-- The `settings` fields that `send_email` consults (from `config.py`). -/
structure SmtpSettings where
  host : Option Str
  port : Int
  senderEmail : Option Str
  username : Option Str
  password : Option Str
  useTLS : Bool
deriving DecidableEq

/-- Outcome of the SMTP network session: success, or one of the four
exception classes `send_email` catches (`SMTPAuthenticationError`,
`SMTPServerDisconnected`, `SMTPConnectError`, and the catch-all
`Exception`), each carrying the `str(e)` text. -/
inductive NetOutcome
  | success
  | authError (e : Str)
  | serverDisconnected (e : Str)
  | connectError (e : Str)
  | otherError (e : Str)
deriving DecidableEq

/-- Index of the outcome kind, used to state message distinguishability. -/
def netKind : NetOutcome → Nat
  | .success => 0
  | .authError _ => 1
  | .serverDisconnected _ => 2
  | .connectError _ => 3
  | .otherError _ => 4

/-- `all([settings.SMTP_HOST, settings.SMTP_PORT, settings.SMTP_SENDER_EMAIL])`:
all three must be truthy (a port of `0` is falsy in Python). -/
def smtpConfigComplete (st : SmtpSettings) : Bool :=
  optTruthy st.host && (st.port != 0) && optTruthy st.senderEmail

/-- `"Error: SMTP configuration (HOST, PORT, SENDER_EMAIL) is incomplete in settings."` -/
def smtpIncompleteMsg : Str :=
  strData "Error: SMTP configuration (HOST, PORT, SENDER_EMAIL) is incomplete in settings."

/-- `f"Email sent successfully to {recipient_email}."` -/
def successMsg (recipientEmail : Str) : Str :=
  strData "Email sent successfully to " ++ (recipientEmail ++ strData ".")

/-- `f"SMTP Authentication Error for user {settings.SMTP_USERNAME}: {e}"` -/
def authErrMsg (username : Option Str) (e : Str) : Str :=
  strData "SMTP Authentication Error for user " ++ (optStr username ++ (strData ": " ++ e))

/-- `f"SMTP Server Disconnected: {e}. Check server address ({settings.SMTP_HOST}) and port ({settings.SMTP_PORT})."` -/
def disconnectedMsg (host : Option Str) (port : Int) (e : Str) : Str :=
  strData "SMTP Server Disconnected: " ++
    (e ++ (strData ". Check server address (" ++
      (optStr host ++ (strData ") and port (" ++ (intStr port ++ strData ").")))))

/-- `f"SMTP Connection Error: Could not connect to {settings.SMTP_HOST}:{settings.SMTP_PORT}. Error: {e}"` -/
def connectErrMsg (host : Option Str) (port : Int) (e : Str) : Str :=
  strData "SMTP Connection Error: Could not connect to " ++
    (optStr host ++ (strData ":" ++ (intStr port ++ (strData ". Error: " ++ e))))

/-- `f"An unexpected error occurred while sending email via {settings.SMTP_HOST}: {e}"` -/
def otherErrMsg (host : Option Str) (e : Str) : Str :=
  strData "An unexpected error occurred while sending email via " ++
    (optStr host ++ (strData ": " ++ e))

/-- Result of `send_email`: the `(bool, str)` pair the function returns, plus
a ghost flag recording whether a network connection was attempted (i.e.
whether control reached the `try` block that opens the SMTP session). -/
structure SendOutcome where
  success : Bool
  message : Str
  networkAttempted : Bool
deriving DecidableEq

/-- `email_sender.send_email`, with the SMTP session's outcome passed in as
`net`.  The function is total: every exception the session can raise is a
`NetOutcome` constructor mapped to a returned `(success, message)` pair, so
the embedding has no failure channel to the caller. -/
def send_email (st : SmtpSettings) (net : NetOutcome)
    (recipientEmail _subject _body : Str) : SendOutcome :=
  if !smtpConfigComplete st then
    ⟨false, smtpIncompleteMsg, false⟩
  else
    match net with
    | .success => ⟨true, successMsg recipientEmail, true⟩
    | .authError e => ⟨false, authErrMsg st.username e, true⟩
    | .serverDisconnected e => ⟨false, disconnectedMsg st.host st.port e, true⟩
    | .connectError e => ⟨false, connectErrMsg st.host st.port e, true⟩
    | .otherError e => ⟨false, otherErrMsg st.host e, true⟩

/-- Two list appends with prefixes that differ at a common index are unequal. -/
theorem append_ne_of_getElem_ne {p q s t : Str} (i : Nat)
    (hip : i < p.length) (hiq : i < q.length) (hne : p[i]? ≠ q[i]?) :
    p ++ s ≠ q ++ t := by
  intro h
  apply hne
  have h1 := congrArg (fun l : Str => l[i]?) h
  simpa [List.getElem?_append, hip, hiq] using h1

/-- C3: if any of SMTP host, port, or sender address is unconfigured (falsy),
`send_email` returns `success = false` with the incomplete-configuration
message and attempts no network connection. -/
theorem send_email_incomplete_config (st : SmtpSettings) (net : NetOutcome)
    (recipientEmail subject body : Str)
    (h : optTruthy st.host = false ∨ st.port = 0 ∨ optTruthy st.senderEmail = false) :
    send_email st net recipientEmail subject body = ⟨false, smtpIncompleteMsg, false⟩ := by
  have hc : smtpConfigComplete st = false := by
    unfold smtpConfigComplete
    rcases h with h | h | h <;> simp [h]
  simp [send_email, hc]

/-- Witness for C3 at a concrete unconfigured-host settings value. -/
theorem send_email_incomplete_config_witness :
    send_email ⟨none, 587, some (strData "from@x.com"), none, none, true⟩ .success
        (strData "to@x.com") (strData "Subject") (strData "Body")
      = ⟨false, smtpIncompleteMsg, false⟩ :=
  send_email_incomplete_config _ _ _ _ _ (Or.inl (by decide))

/-- C4: `send_email` always returns a `(success, message)` pair (the Lean
function is total: each `except` clause of the source is a `NetOutcome`
constructor mapped to a return value, so nothing escapes to the caller);
`success` is `true` exactly on the success outcome with complete
configuration, and the five outcome kinds carry pairwise distinct messages,
whatever exception texts the transport produces. -/
theorem send_email_total_taxonomy (st : SmtpSettings) (r sub b : Str)
    (net net' : NetOutcome) :
    ((send_email st net r sub b).success = true ↔
      (smtpConfigComplete st = true ∧ netKind net = 0)) ∧
    (smtpConfigComplete st = true → netKind net ≠ netKind net' →
      (send_email st net r sub b).message ≠ (send_email st net' r sub b).message) := by
  constructor
  · cases hc : smtpConfigComplete st
    · cases net <;> simp [send_email, hc, netKind]
    · cases net <;> simp [send_email, hc, netKind]
  · intro hc hk
    cases net <;> cases net' <;>
      simp only [netKind, ne_eq, not_true_eq_false] at hk ⊢ <;>
      simp only [send_email, hc, Bool.not_true, Bool.false_eq_true, if_false,
        successMsg, authErrMsg, disconnectedMsg, connectErrMsg, otherErrMsg] <;>
      first
        | exact absurd rfl hk
        | exact append_ne_of_getElem_ne 0 (by decide) (by decide) (by decide)
        | exact append_ne_of_getElem_ne 5 (by decide) (by decide) (by decide)

/-- A fully configured `SmtpSettings` value for witnesses. -/
def smtpOkSettings : SmtpSettings :=
  ⟨some (strData "smtp.example.com"), 587, some (strData "from@x.com"),
   some (strData "user"), some (strData "pw"), true⟩

/-- Witness for C4: concrete success outcome, and distinct messages for an
authentication failure versus a server disconnect with identical exception
text. -/
theorem send_email_total_taxonomy_witness :
    (send_email smtpOkSettings .success (strData "to@x.com") (strData "S")
      (strData "B")).success = true ∧
    (send_email smtpOkSettings (.authError (strData "boom")) (strData "to@x.com")
        (strData "S") (strData "B")).message ≠
      (send_email smtpOkSettings (.serverDisconnected (strData "boom"))
        (strData "to@x.com") (strData "S") (strData "B")).message :=
  ⟨(send_email_total_taxonomy smtpOkSettings (strData "to@x.com") (strData "S")
      (strData "B") .success .success).1.mpr ⟨by decide, rfl⟩,
   (send_email_total_taxonomy smtpOkSettings (strData "to@x.com") (strData "S")
      (strData "B") (.authError (strData "boom"))
      (.serverDisconnected (strData "boom"))).2 (by decide) (by decide)⟩

/-!
## email_generator.py — `generate_email_content`

Contact-row values are Python objects: strings from the CSV reader, or an
arbitrary non-string object (`PyVal.obj` with its truthiness; its `str()`
form is abstracted as a constant, which no verified claim depends on).
The Gemini client library's availability, the API key, and the outcome of
the service interaction are explicit parameters.
-/

/-- A Python value stored under a contact-dictionary key. -/
inductive PyVal
  | str (s : Str)
  | obj (truthy : Bool)
deriving DecidableEq

/-- Python truthiness of a `PyVal`. -/
def pyTruthyVal : PyVal → Bool
  | .str s => !s.isEmpty
  | .obj t => t

/-- Python `str(v)` (non-string object text abstracted as a constant). -/
def pyStrOfVal : PyVal → Str
  | .str s => s
  | .obj _ => strData "<object>"

/-- A contact record as the orchestrator sees it: a Python dict. -/
abbrev Contact := List (Str × PyVal)

/-- Exception raised by `str.format`: `KeyError` with the missing field
name, or `ValueError` for malformed brace syntax. -/
inductive FmtErr
  | keyError (name : Str)
  | valueError (msg : Str)
deriving DecidableEq

/-- Python `str(e)` of a format exception (`KeyError`'s `str` is the
`repr` of its argument, i.e. the name wrapped in apostrophes). -/
def fmtExcStr : FmtErr → Str
  | .keyError k => apos :: (k ++ [apos])
  | .valueError m => m

/-- `user_prompt.format(**company_data)`, restricted to the feature subset
the repository exercises: plain `{Name}` placeholders and doubled-brace
escapes (no conversions, format specs, indexing or attribute access).  A
placeholder whose name is not a key of the dict raises `KeyError(name)`.
Recursion is on a fuel bounded by the template length; each step consumes
at least one character, so `template.length + 1` fuel never runs out. -/
def pyFormatGo (data : Contact) : Nat → Str → Except FmtErr Str
  | 0, _ => .ok []
  | _ + 1, [] => .ok []
  | fuel + 1, c :: rest =>
    if c = '{' then
      match rest with
      | '{' :: rest2 => (pyFormatGo data fuel rest2).map (fun t => '{' :: t)
      | _ =>
        let name := rest.takeWhile (fun c2 => c2 ≠ '}')
        match rest.dropWhile (fun c2 => c2 ≠ '}') with
        | [] =>
          .error (.valueError (strData "Single " ++
            (apos :: '{' :: apos :: strData " encountered in format string")))
        | _ :: rest2 =>
          match List.lookup name data with
          | none => .error (.keyError name)
          | some v => (pyFormatGo data fuel rest2).map (fun t => pyStrOfVal v ++ t)
    else if c = '}' then
      match rest with
      | '}' :: rest2 => (pyFormatGo data fuel rest2).map (fun t => '}' :: t)
      | _ =>
        .error (.valueError (strData "Single " ++
          (apos :: '}' :: apos :: strData " encountered in format string")))
    else
      (pyFormatGo data fuel rest).map (fun t => c :: t)

/-- Python `str.format` over a contact dict. -/
def pyFormat (data : Contact) (tmpl : Str) : Except FmtErr Str :=
  pyFormatGo data (tmpl.length + 1) tmpl

/-- The parts of `config`/module state that `generate_email_content`
consults: whether `google.generativeai` imported, the `GEMINI_API_KEY`,
and the exception text if `genai.configure`/model construction raises. -/
structure GenEnv where
  genaiAvailable : Bool
  apiKey : Option Str
  configureError : Option Str
deriving DecidableEq

/-- Outcome of the `model.generate_content` call: a response with parts
(whose `.text` is returned), a blocked/empty response (with the formatted
block reason and safety-ratings text), or a raised exception's text. -/
inductive GenResp
  | parts (text : Str)
  | blocked (blockReason safetyRatings : Str)
  | raises (e : Str)
deriving DecidableEq

/-- `f"Error generating email content: {str(e)}"` -/
def genErrMsg (e : Str) : Str := strData "Error generating email content: " ++ e

/-- `"Error: google-generativeai library is not installed or loaded."` -/
def genLibMissingMsg : Str :=
  strData "Error: google-generativeai library is not installed or loaded."

/-- `"Error: GEMINI_API_KEY is not configured in settings."` -/
def genKeyMissingMsg : Str :=
  strData "Error: GEMINI_API_KEY is not configured in settings."

/-- `f"Error: Failed to generate content. Block Reason: {block_reason}. Safety Ratings: {safety_ratings_str}"` -/
def genBlockedMsg (blockReason safetyRatings : Str) : Str :=
  strData "Error: Failed to generate content. Block Reason: " ++
    (blockReason ++ (strData ". Safety Ratings: " ++ safetyRatings))

/-- `email_generator.generate_email_content`.  Returns the string the
Python function returns, paired with a ghost flag recording whether the
generation-service call (`model.generate_content`) was attempted.  All
exceptions inside the `try` are caught by the source's blanket `except`
and folded into `genErrMsg`; the function never raises. -/
def generate_email_content (env : GenEnv) (resp : GenResp)
    (companyData : Contact) (userPrompt : Str) : Str × Bool :=
  if !env.genaiAvailable then
    (genLibMissingMsg, false)
  else if !(optTruthy env.apiKey) then
    (genKeyMissingMsg, false)
  else
    match env.configureError with
    | some e => (genErrMsg e, false)
    | none =>
      match pyFormat companyData userPrompt with
      | .error exc => (genErrMsg (fmtExcStr exc), false)
      | .ok _promptForApi =>
        match resp with
        | .parts text => (text, true)
        | .blocked br sr => (genBlockedMsg br sr, true)
        | .raises e => (genErrMsg (e), true)

/-- C7: when the client library is unavailable or the API key is
unconfigured, `generate_email_content` returns one of the two descriptive
failure strings immediately and never attempts the service call. -/
theorem generate_email_content_unconfigured (env : GenEnv) (resp : GenResp)
    (companyData : Contact) (userPrompt : Str)
    (h : env.genaiAvailable = false ∨ optTruthy env.apiKey = false) :
    (generate_email_content env resp companyData userPrompt).2 = false ∧
    ((generate_email_content env resp companyData userPrompt).1 = genLibMissingMsg ∨
     (generate_email_content env resp companyData userPrompt).1 = genKeyMissingMsg) := by
  rcases h with h | h
  · simp [generate_email_content, h]
  · cases ha : env.genaiAvailable <;> simp [generate_email_content, h, ha]

/-- Witness for C7: library available but key unconfigured. -/
theorem generate_email_content_unconfigured_witness :
    (generate_email_content ⟨true, none, none⟩ (.parts (strData "text"))
      [] (strData "Hi")).2 = false ∧
    ((generate_email_content ⟨true, none, none⟩ (.parts (strData "text"))
        [] (strData "Hi")).1 = genLibMissingMsg ∨
     (generate_email_content ⟨true, none, none⟩ (.parts (strData "text"))
        [] (strData "Hi")).1 = genKeyMissingMsg) :=
  generate_email_content_unconfigured ⟨true, none, none⟩ (.parts (strData "text"))
    [] (strData "Hi") (Or.inr (by decide))

/-!
## app.py — the per-contact loop of `process_emails_route`

The loop calls `generate_email_content` and `send_email`; both are passed
in as oracles (`gen`, `send`).  `gen` returns `Except`: `.error s` models
the generator raising `KeyError` with `str(e_key) = s` (only the dummy
fallback generator can do this — the real one catches everything), `.ok`
models a returned string.  Side effects are recorded explicitly: the log
rows written via `log_email_attempt`, and ghost flags/collections for the
generation and dispatch calls attempted.
-/

/-- One row passed to `log_email_attempt` (timestamp omitted: it is the
wall clock, supplied separately where the log file is modelled). -/
structure LogRow where
  recipient : Str
  subject : Str
  status : Str
  message : Str
deriving DecidableEq

/-- One entry of the route's `results` list (the `reason`/`message` value
is stored in `text`). -/
structure Detail where
  recipient : Str
  company : Str
  status : Str
  text : Str
deriving DecidableEq

/-- Result of processing one contact: its `results` entry, the counter
increments, the log rows written, and whether generation / dispatch were
attempted for it. -/
structure StepRes where
  detail : Detail
  sentInc : Nat
  failedInc : Nat
  logs : List LogRow
  genCalled : Bool
  sendCalled : Bool
deriving DecidableEq

/-- `not recipient_email or not isinstance(recipient_email, str) or "@" not in recipient_email`:
the contact's email is missing, falsy, a non-string, or lacks `@`. -/
def emailInvalid : Option PyVal → Bool
  | none => true
  | some (.str s) => s.isEmpty || !(s.contains '@')
  | some (.obj _) => true

/-- `recipient_email or "N/A"` as logged for an invalid-email contact. -/
def displayRecipient : Option PyVal → Str
  | none => strData "N/A"
  | some v => if pyTruthyVal v then pyStrOfVal v else strData "N/A"

/-- `"Missing or invalid email address in CSV row."` -/
def invalidEmailReason : Str := strData "Missing or invalid email address in CSV row."

/-- `f"Prompt formatting error: Missing key {e_key}. Ensure all prompt placeholders match CSV headers."` -/
def promptKeyReason (eKey : Str) : Str :=
  strData "Prompt formatting error: Missing key " ++
    (eKey ++ strData ". Ensure all prompt placeholders match CSV headers.")

/-- The body of the `for contact_data in contacts:` loop for one contact. -/
def processContact (gen : Contact → Except Str Str)
    (send : Str → Str → Str → Bool × Str) (contactData : Contact) : StepRes :=
  let recipientV := List.lookup (strData "Email") contactData
  let companyName :=
    match List.lookup (strData "Company Name") contactData with
    | some v => if pyTruthyVal v then pyStrOfVal v else strData "Valued Partner"
    | none => strData "Valued Partner"
  let subject := strData "Regarding Your Business, " ++ companyName
  if emailInvalid recipientV then
    { detail := ⟨displayRecipient recipientV, companyName, strData "Failed", invalidEmailReason⟩,
      sentInc := 0, failedInc := 1,
      logs := [⟨displayRecipient recipientV, subject, strData "Failed", invalidEmailReason⟩],
      genCalled := false, sendCalled := false }
  else
    let recipientEmail := pyStrOfVal ((recipientV).getD (.str []))
    match gen contactData with
    | .error eKey =>
      { detail := ⟨recipientEmail, companyName, strData "Failed", promptKeyReason eKey⟩,
        sentInc := 0, failedInc := 1,
        logs := [⟨recipientEmail, subject, strData "Failed", promptKeyReason eKey⟩],
        genCalled := true, sendCalled := false }
    | .ok emailBody =>
      if strContainsSub emailBody (strData "Error:") ||
         (strContainsSub emailBody (strData "Dummy email content") &&
          strContainsSub emailBody (strData "dummy_generator")) then
        let reason := strData "Email content generation issue: " ++ emailBody
        { detail := ⟨recipientEmail, companyName, strData "Failed", reason⟩,
          sentInc := 0, failedInc := 1,
          logs := [⟨recipientEmail, subject, strData "Failed", reason⟩],
          genCalled := true, sendCalled := false }
      else
        let r := send recipientEmail subject emailBody
        if r.1 then
          { detail := ⟨recipientEmail, companyName, strData "Sent", r.2⟩,
            sentInc := 1, failedInc := 0,
            logs := [⟨recipientEmail, subject, strData "Sent", r.2⟩],
            genCalled := true, sendCalled := true }
        else
          { detail := ⟨recipientEmail, companyName, strData "Failed", r.2⟩,
            sentInc := 0, failedInc := 1,
            logs := [⟨recipientEmail, subject, strData "Failed", r.2⟩],
            genCalled := true, sendCalled := true }

/-- Accumulated state of the loop: `results`, the two counters, and the
log rows written, in source order. -/
structure BatchAcc where
  results : List Detail
  sent : Nat
  failed : Nat
  logs : List LogRow
deriving DecidableEq

/-- The whole `for` loop over the extracted contacts. -/
def processContacts (gen : Contact → Except Str Str)
    (send : Str → Str → Str → Bool × Str) : List Contact → BatchAcc
  | [] => ⟨[], 0, 0, []⟩
  | c :: rest =>
    let s := processContact gen send c
    let acc := processContacts gen send rest
    ⟨s.detail :: acc.results, s.sentInc + acc.sent, s.failedInc + acc.failed,
      s.logs ++ acc.logs⟩

/-- `f"No data extracted from {filename}. Check file content or column names."` -/
def noDataMsg (filename : Str) : Str :=
  strData "No data extracted from " ++
    (filename ++ strData ". Check file content or column names.")

/-- Outcome of `process_emails_route` after extraction: the 400 error
response (with the log rows written), or the JSON summary. -/
inductive RouteOutcome
  | err (msg : Str) (logs : List LogRow)
  | ok (totalContactsProcessed sent failed : Nat) (details : List Detail)
      (logs : List LogRow)
deriving DecidableEq

/-- `process_emails_route` from the point where extraction has produced
`contacts`: abort with a single batch-level `Failed` log row when no
contacts were extracted, otherwise run the loop and build the summary. -/
def processEmailsRoute (gen : Contact → Except Str Str)
    (send : Str → Str → Str → Bool × Str) (filename : Str)
    (contacts : List Contact) : RouteOutcome :=
  if contacts.isEmpty then
    .err (noDataMsg filename)
      [⟨strData "N/A", strData "Batch Processing Error", strData "Failed",
        noDataMsg filename⟩]
  else
    let acc := processContacts gen send contacts
    .ok contacts.length acc.sent acc.failed acc.results acc.logs

/-- C5: a contact whose email is missing, non-string, or lacks `@` is
marked `Failed` with the invalid-email reason, one matching log row is
written, and neither generation nor dispatch is attempted for it. -/
theorem processContact_invalid_email (gen : Contact → Except Str Str)
    (send : Str → Str → Str → Bool × Str) (c : Contact)
    (h : emailInvalid (List.lookup (strData "Email") c) = true) :
    (processContact gen send c).detail.status = strData "Failed" ∧
    (processContact gen send c).detail.text = invalidEmailReason ∧
    (processContact gen send c).genCalled = false ∧
    (processContact gen send c).sendCalled = false ∧
    (processContact gen send c).logs.map (fun l => (l.status, l.message)) =
      [(strData "Failed", invalidEmailReason)] := by
  simp [processContact, h]

/-- Witness for C5 at a concrete contact whose email lacks `@`. -/
theorem processContact_invalid_email_witness :
    (processContact (fun _ => .ok (strData "body")) (fun _ _ _ => (true, strData "ok"))
        [(strData "Email", .str (strData "bob")),
         (strData "Company Name", .str (strData "Acme"))]).detail.status
      = strData "Failed" ∧
    (processContact (fun _ => .ok (strData "body")) (fun _ _ _ => (true, strData "ok"))
        [(strData "Email", .str (strData "bob")),
         (strData "Company Name", .str (strData "Acme"))]).detail.text
      = invalidEmailReason ∧
    (processContact (fun _ => .ok (strData "body")) (fun _ _ _ => (true, strData "ok"))
        [(strData "Email", .str (strData "bob")),
         (strData "Company Name", .str (strData "Acme"))]).genCalled = false ∧
    (processContact (fun _ => .ok (strData "body")) (fun _ _ _ => (true, strData "ok"))
        [(strData "Email", .str (strData "bob")),
         (strData "Company Name", .str (strData "Acme"))]).sendCalled = false ∧
    (processContact (fun _ => .ok (strData "body")) (fun _ _ _ => (true, strData "ok"))
        [(strData "Email", .str (strData "bob")),
         (strData "Company Name", .str (strData "Acme"))]).logs.map
        (fun l => (l.status, l.message))
      = [(strData "Failed", invalidEmailReason)] :=
  processContact_invalid_email _ _ _ (by decide)

/-- C6: with zero extracted contacts the route aborts before the loop,
writing exactly one batch-level `Failed` log row carrying the no-data
message, and returns the error outcome instead of a summary. -/
theorem processEmailsRoute_no_data (gen : Contact → Except Str Str)
    (send : Str → Str → Str → Bool × Str) (filename : Str)
    (contacts : List Contact) (h : contacts = []) :
    processEmailsRoute gen send filename contacts =
      .err (noDataMsg filename)
        [⟨strData "N/A", strData "Batch Processing Error", strData "Failed",
          noDataMsg filename⟩] := by
  subst h
  rfl

/-- Witness for C6 at the empty contact list. -/
theorem processEmailsRoute_no_data_witness :
    processEmailsRoute (fun _ => .ok (strData "body"))
        (fun _ _ _ => (true, strData "ok")) (strData "u.csv") [] =
      .err (noDataMsg (strData "u.csv"))
        [⟨strData "N/A", strData "Batch Processing Error", strData "Failed",
          noDataMsg (strData "u.csv")⟩] :=
  processEmailsRoute_no_data _ _ _ _ rfl

/-- Each loop iteration increments exactly one of the two counters. -/
theorem processContact_one_increment (gen : Contact → Except Str Str)
    (send : Str → Str → Str → Bool × Str) (c : Contact) :
    (processContact gen send c).sentInc + (processContact gen send c).failedInc = 1 := by
  simp only [processContact]
  repeat' split
  all_goals rfl

/-- The loop's counters sum to the number of contacts and its `results`
list holds exactly the per-contact details in order. -/
theorem processContacts_spec (gen : Contact → Except Str Str)
    (send : Str → Str → Str → Bool × Str) (contacts : List Contact) :
    (processContacts gen send contacts).sent + (processContacts gen send contacts).failed
      = contacts.length ∧
    (processContacts gen send contacts).results
      = contacts.map (fun c => (processContact gen send c).detail) := by
  induction contacts with
  | nil => exact ⟨rfl, rfl⟩
  | cons c rest ih =>
    refine ⟨?_, ?_⟩
    · have h1 := processContact_one_increment gen send c
      simp only [processContacts, List.length_cons]
      omega
    · simp only [processContacts, List.map_cons]
      rw [ih.2]

/-- Every detail entry the step produces carries status `Sent` or `Failed`. -/
theorem processContact_status (gen : Contact → Except Str Str)
    (send : Str → Str → Str → Bool × Str) (c : Contact) :
    (processContact gen send c).detail.status = strData "Sent" ∨
    (processContact gen send c).detail.status = strData "Failed" := by
  simp only [processContact]
  repeat' split
  all_goals first
    | exact Or.inl rfl
    | exact Or.inr rfl

/-- C9: for a non-empty extracted contact list, the summary satisfies
`total_contacts_processed = emails_sent + emails_failed`, the total equals
the number of extracted contacts, and `details` holds exactly one entry
per contact (in order), each with status `Sent` or `Failed`; each
iteration contributes exactly one detail entry and one counter increment. -/
theorem processEmailsRoute_summary_invariant (gen : Contact → Except Str Str)
    (send : Str → Str → Str → Bool × Str) (filename : Str)
    (contacts : List Contact) (h : contacts ≠ []) :
    processEmailsRoute gen send filename contacts =
      .ok contacts.length (processContacts gen send contacts).sent
        (processContacts gen send contacts).failed
        (processContacts gen send contacts).results
        (processContacts gen send contacts).logs ∧
    (processContacts gen send contacts).sent +
      (processContacts gen send contacts).failed = contacts.length ∧
    (processContacts gen send contacts).results
      = contacts.map (fun c => (processContact gen send c).detail) ∧
    (∀ c ∈ contacts,
      (processContact gen send c).sentInc + (processContact gen send c).failedInc = 1) ∧
    (∀ d ∈ (processContacts gen send contacts).results,
      d.status = strData "Sent" ∨ d.status = strData "Failed") := by
  refine ⟨?_, (processContacts_spec gen send contacts).1,
    (processContacts_spec gen send contacts).2,
    fun c _ => processContact_one_increment gen send c, ?_⟩
  · simp only [processEmailsRoute, List.isEmpty_eq_true]
    rw [if_neg h]
  · intro d hd
    rw [(processContacts_spec gen send contacts).2] at hd
    obtain ⟨c, _, rfl⟩ := List.mem_map.mp hd
    exact processContact_status gen send c

/-- Witness for C9 on a concrete two-contact batch (one valid, one with a
blank email), with concrete generation and dispatch oracles. -/
theorem processEmailsRoute_summary_invariant_witness :
    processEmailsRoute (fun _ => .ok (strData "body"))
        (fun _ _ _ => (true, strData "ok")) (strData "u.csv")
        [[(strData "Email", .str (strData "a@x.com")),
          (strData "Company Name", .str (strData "Acme"))],
         [(strData "Email", .str (strData "")),
          (strData "Company Name", .str (strData "NoEmail"))]] =
      .ok 2
        (processContacts (fun _ => .ok (strData "body"))
          (fun _ _ _ => (true, strData "ok"))
          [[(strData "Email", .str (strData "a@x.com")),
            (strData "Company Name", .str (strData "Acme"))],
           [(strData "Email", .str (strData "")),
            (strData "Company Name", .str (strData "NoEmail"))]]).sent
        (processContacts (fun _ => .ok (strData "body"))
          (fun _ _ _ => (true, strData "ok"))
          [[(strData "Email", .str (strData "a@x.com")),
            (strData "Company Name", .str (strData "Acme"))],
           [(strData "Email", .str (strData "")),
            (strData "Company Name", .str (strData "NoEmail"))]]).failed
        (processContacts (fun _ => .ok (strData "body"))
          (fun _ _ _ => (true, strData "ok"))
          [[(strData "Email", .str (strData "a@x.com")),
            (strData "Company Name", .str (strData "Acme"))],
           [(strData "Email", .str (strData "")),
            (strData "Company Name", .str (strData "NoEmail"))]]).results
        (processContacts (fun _ => .ok (strData "body"))
          (fun _ _ _ => (true, strData "ok"))
          [[(strData "Email", .str (strData "a@x.com")),
            (strData "Company Name", .str (strData "Acme"))],
           [(strData "Email", .str (strData "")),
            (strData "Company Name", .str (strData "NoEmail"))]]).logs ∧
    (processContacts (fun _ => .ok (strData "body"))
        (fun _ _ _ => (true, strData "ok"))
        [[(strData "Email", .str (strData "a@x.com")),
          (strData "Company Name", .str (strData "Acme"))],
         [(strData "Email", .str (strData "")),
          (strData "Company Name", .str (strData "NoEmail"))]]).sent +
      (processContacts (fun _ => .ok (strData "body"))
        (fun _ _ _ => (true, strData "ok"))
        [[(strData "Email", .str (strData "a@x.com")),
          (strData "Company Name", .str (strData "Acme"))],
         [(strData "Email", .str (strData "")),
          (strData "Company Name", .str (strData "NoEmail"))]]).failed = 2 := by
  have h := processEmailsRoute_summary_invariant (fun _ => .ok (strData "body"))
    (fun _ _ _ => (true, strData "ok")) (strData "u.csv")
    [[(strData "Email", .str (strData "a@x.com")),
      (strData "Company Name", .str (strData "Acme"))],
     [(strData "Email", .str (strData "")),
      (strData "Company Name", .str (strData "NoEmail"))]] (by simp)
  exact ⟨h.1, h.2.1⟩

/-!
## C2: the missing-placeholder path, end to end

`generate_email_content` catches the `KeyError` that
`user_prompt.format(**company_data)` raises for a placeholder naming an
absent field and returns `"Error generating email content: '<field>'"`.
That string does not contain the marker `"Error:"` that the orchestrator's
`if "Error:" in email_body` check looks for (the colon is attached to
`content`, not to `Error`), so the orchestrator treats the error text as a
valid body and calls `send_email` with it — and `app.py`'s own
`except KeyError` handler is unreachable, since the real generator never
raises.  The claim (and `app.py`'s dead handler, which shows the intent)
say the contact must be marked `Failed` without dispatch.
-/

/-- The real generator as the loop's oracle: it never raises, so the
`Except.error` (KeyError) channel is never used. -/
def realGen (env : GenEnv) (resp : GenResp) (userPrompt : Str) :
    Contact → Except Str Str :=
  fun c => .ok (generate_email_content env resp c userPrompt).1

/-- A configured generator environment (library imported, key set). -/
def cbugEnv : GenEnv := ⟨true, some (strData "api-key"), none⟩

/-- Service response for the C2 scenario (never reached: formatting fails
before the call). -/
def cbugResp : GenResp := .parts (strData "unused")

/-- A contact as the real extractor produces it: only `Email` and
`Company Name` keys. -/
def cbugContact : Contact :=
  [(strData "Email", .str (strData "a@x.com")),
   (strData "Company Name", .str (strData "Acme"))]

/-- A prompt template referencing a field the contact does not have. -/
def cbugPrompt : Str := strData "Hello {Industry}"

/-- A dispatch oracle that reports success. -/
def cbugSend : Str → Str → Str → Bool × Str :=
  fun _ _ _ => (true, strData "delivered")

/-- C2 (code bug): at this input, generation fails with a message naming
the missing field `Industry` and without calling the service — yet the
orchestrator's marker check misses the message, dispatch IS attempted,
and the contact ends with status `Sent`, contradicting the claim. -/
theorem generation_error_marker_mismatch_bug :
    (generate_email_content cbugEnv cbugResp cbugContact cbugPrompt).1
      = genErrMsg (fmtExcStr (.keyError (strData "Industry"))) ∧
    (generate_email_content cbugEnv cbugResp cbugContact cbugPrompt).2 = false ∧
    (processContact (realGen cbugEnv cbugResp cbugPrompt) cbugSend cbugContact).sendCalled
      = true ∧
    (processContact (realGen cbugEnv cbugResp cbugPrompt) cbugSend cbugContact).detail.status
      = strData "Sent" := by
  decide

/-!
## excel_processor.py — `extract_data_from_csv`

The file's parsed form is passed in: the header (`reader.fieldnames`) and
the data rows as dicts keyed by the original header names (`csv.DictReader`
semantics; a key missing from a short row maps to `none`).  An empty
`fieldnames` models an empty/headerless file.
-/

/-- The default candidate names for the email column. -/
def defaultEmailColOptions : List Str :=
  [strData "Email", strData "Email Address", strData "E-mail", strData "email",
   strData "Contact Email", strData "EmailID", strData "CONTACT_EMAIL"]

/-- The default candidate names for the company-name column. -/
def defaultCompanyColOptions : List Str :=
  [strData "Company Name", strData "Company", strData "Organization",
   strData "company_name", strData "Account Name", strData "CompanyName",
   strData "COMPANY_NAME"]

/-- `name.strip().lower()` — the normalization used for header matching. -/
def normKey (s : Str) : Str := pyLower (pyStrip s)

/-- `{name.strip().lower(): name for name in reader.fieldnames}`.  A Python
dict comprehension keeps the LAST binding for a duplicated key; building
the association list from the reversed field list makes `List.lookup`
(first match) agree with that. -/
def normalizedFieldnamesMap (fieldnames : List Str) : List (Str × Str) :=
  fieldnames.reverse.map (fun n => (normKey n, n))

/-- The `for option in ...: if option.strip().lower() in map: ... break`
loops: first candidate that matches, mapped back to the original header. -/
def findColumn (options : List Str) (m : List (Str × Str)) : Option Str :=
  match options with
  | [] => none
  | o :: rest =>
    match List.lookup (normKey o) m with
    | some orig => some orig
    | none => findColumn rest m

/-- The per-row body of the extraction loop: compute the company value
(stripped, defaulting to `"N/A"`), skip the row when the email cell is
missing or blank after stripping, else emit the two-field record. -/
def extractRowEntry (actualEmailCol : Str) (actualCompanyCol : Option Str)
    (row : List (Str × Str)) : Option (List (Str × Str)) :=
  let companyNameToStore :=
    match actualCompanyCol with
    | none => strData "N/A"
    | some cc =>
      match List.lookup cc row with
      | none => strData "N/A"
      | some v => if (pyStrip v).isEmpty then strData "N/A" else pyStrip v
  match List.lookup actualEmailCol row with
  | none => none
  | some email =>
    if (pyStrip email).isEmpty then none
    else some [(strData "Email", pyStrip email),
               (strData "Company Name", companyNameToStore)]

/-- `excel_processor.extract_data_from_csv` on a parsed CSV (header plus
dict rows), default column candidates. -/
def extract_data_from_csv (fieldnames : List Str)
    (rows : List (List (Str × Str))) : List (List (Str × Str)) :=
  if fieldnames.isEmpty then []
  else
    let m := normalizedFieldnamesMap fieldnames
    match findColumn defaultEmailColOptions m with
    | none => []
    | some actualEmailCol =>
      rows.filterMap (extractRowEntry actualEmailCol (findColumn defaultCompanyColOptions m))

/-- Header of the C1 counterexample file: an extra `Industry` column. -/
def c1Fieldnames : List Str :=
  [strData "Email", strData "Company Name", strData "Industry"]

/-- Its single data row. -/
def c1Row : List (Str × Str) :=
  [(strData "Email", strData "a@x.com"),
   (strData "Company Name", strData "Acme"),
   (strData "Industry", strData "Tech")]

/-- C1 counterexample: it is NOT the case that every extracted record
contains the row's other header/value pairs — the `Industry` column of
this row is absent from the (unique, nonempty) output record. -/
theorem extract_extra_column_not_passed_through :
    ¬ (∀ rec ∈ extract_data_from_csv c1Fieldnames [c1Row],
        (strData "Industry", strData "Tech") ∈ rec) ∧
    extract_data_from_csv c1Fieldnames [c1Row]
      = [[(strData "Email", strData "a@x.com"),
          (strData "Company Name", strData "Acme")]] := by
  constructor
  · decide
  · decide

/-- C1 amended: every record the extractor outputs consists of exactly the
`Email` and `Company Name` fields — other columns of the source row are
dropped, not passed through. -/
theorem extract_record_exactly_two_fields (fieldnames : List Str)
    (rows : List (List (Str × Str))) (rec : List (Str × Str))
    (h : rec ∈ extract_data_from_csv fieldnames rows) :
    ∃ e c, rec = [(strData "Email", e), (strData "Company Name", c)] := by
  simp only [extract_data_from_csv] at h
  split at h
  · simp at h
  · split at h
    · simp at h
    · rw [List.mem_filterMap] at h
      obtain ⟨row, _, hrow⟩ := h
      simp only [extractRowEntry] at hrow
      split at hrow
      · simp at hrow
      · split at hrow
        · simp at hrow
        · exact ⟨_, _, (Option.some_inj.mp hrow).symm⟩

/-- Witness for the C1 amended claim at the counterexample input. -/
theorem extract_record_exactly_two_fields_witness :
    ∃ e c, [(strData "Email", strData "a@x.com"),
            (strData "Company Name", strData "Acme")]
      = [(strData "Email", e), (strData "Company Name", c)] :=
  extract_record_exactly_two_fields c1Fieldnames [c1Row]
    [(strData "Email", strData "a@x.com"),
     (strData "Company Name", strData "Acme")] (by decide)

/-!
## app.py — `stats_route` counting

A log entry as `csv.DictReader` delivers it is a dict (assoc list) from
header names to cell values.  The route counts a row as a successful send
exactly when `row.get('status', '').strip().lower() == 'sent'`; every
other row increments `failed_sends`.
-/

/-- `row.get('status', '')`. -/
def rowStatusField (row : List (Str × Str)) : Str :=
  (List.lookup (strData "status") row).getD []

/-- `row.get('status', '').strip().lower() == 'sent'`. -/
def isSentRow (row : List (Str × Str)) : Bool :=
  pyLower (pyStrip (rowStatusField row)) == strData "sent"

/-- The counting loop of `stats_route`: `(successful_sends, failed_sends)`. -/
def statsCounts : List (List (Str × Str)) → Nat × Nat
  | [] => (0, 0)
  | row :: rest =>
    let p := statsCounts rest
    if isSentRow row then (p.1 + 1, p.2) else (p.1, p.2 + 1)

/-- C10: a log row counts toward `successful_sends` iff its status,
stripped and lowercased, is exactly `sent`; everything else — including
the test-route statuses `Test - Sent` and `Test - Attempted` — counts
toward `failed_sends`, and the two counters always sum to
`total_attempts` (the number of entries). -/
theorem statsCounts_partition (rows : List (List (Str × Str))) :
    (statsCounts rows).1 + (statsCounts rows).2 = rows.length ∧
    (statsCounts rows).1 = rows.countP (fun row => isSentRow row) ∧
    (statsCounts rows).2 = rows.countP (fun row => !isSentRow row) ∧
    (∀ row, isSentRow row =
      (pyLower (pyStrip ((List.lookup (strData "status") row).getD [])) == strData "sent")) ∧
    isSentRow [(strData "status", strData "Test - Sent")] = false ∧
    isSentRow [(strData "status", strData "Test - Attempted")] = false ∧
    isSentRow [(strData "status", strData "Sent")] = true := by
  refine ⟨?_, ?_, ?_, fun _ => rfl, by decide, by decide, by decide⟩
  · induction rows with
    | nil => rfl
    | cons row rest ih =>
      simp only [statsCounts, List.length_cons]
      split <;> simp <;> omega
  · induction rows with
    | nil => rfl
    | cons row rest ih =>
      simp only [statsCounts, List.countP_cons]
      cases hr : isSentRow row <;> simp [hr, ih]
  · induction rows with
    | nil => rfl
    | cons row rest ih =>
      simp only [statsCounts, List.countP_cons]
      cases hr : isSentRow row <;> simp [hr, ih]

/-!
## The CSV layer (Python `csv` module, default dialect)

`csv.DictWriter` with `QUOTE_MINIMAL` quotes a field iff it contains the
delimiter `,`, the quote char `"`, or a line-terminator character (`\r` or
`\n`); a quote inside a quoted field is doubled; each record ends with
`\r\n`.  `csv.reader` (underlying `DictReader`) splits records at
unquoted `\r\n` / `\r` / `\n`, un-doubles quotes inside quoted fields, and
yields an empty row for a blank line, which `DictReader` skips.
-/

/-- Characters that terminate an unquoted field. -/
def isStopChar (c : Char) : Bool := c = ',' || c = '\r' || c = '\n'

/-- `QUOTE_MINIMAL`: quote iff the field contains a special character. -/
def needsQuote (f : Str) : Bool :=
  f.any (fun c => c = ',' || c = '"' || c = '\r' || c = '\n')

/-- Double every quote character of the field. -/
def escField : Str → Str
  | [] => []
  | c :: rest => if c = '"' then '"' :: '"' :: escField rest else c :: escField rest

/-- Serialize one field. -/
def writeField (f : Str) : Str :=
  if needsQuote f then '"' :: (escField f ++ ['"']) else f

/-- Serialize a record's fields, comma-separated. -/
def joinFields : List Str → Str
  | [] => []
  | [f] => writeField f
  | f :: fs => writeField f ++ ',' :: joinFields fs

/-- Serialize one record with the `\r\n` terminator. -/
def writeRecord (r : List Str) : Str := joinFields r ++ ['\r', '\n']

/-- A CSV file holding the given records. -/
def csvFileOf (rows : List (List Str)) : Str := (rows.map writeRecord).flatten

/-- Parse a quoted field (after its opening quote): a doubled quote is a
literal quote, a single quote closes the field. -/
def parseQuoted : Str → Str × Str
  | [] => ([], [])
  | c :: rest =>
    if c = '"' then
      match rest with
      | [] => ([], [])
      | d :: rest2 =>
        if d = '"' then
          let p := parseQuoted rest2
          ('"' :: p.1, p.2)
        else ([], d :: rest2)
    else
      let p := parseQuoted rest
      (c :: p.1, p.2)

/-- Parse an unquoted field: everything up to a stop character. -/
def parseBare : Str → Str × Str
  | [] => ([], [])
  | c :: rest =>
    if isStopChar c then ([], c :: rest)
    else
      let p := parseBare rest
      (c :: p.1, p.2)

/-- Parse one field (quoted or bare). -/
def parseField : Str → Str × Str
  | [] => parseBare []
  | c :: rest => if c = '"' then parseQuoted rest else parseBare (c :: rest)

/-- Consume one record terminator (`\r\n`, `\r`, or `\n`). -/
def eatEOL : Str → Str
  | [] => []
  | c :: rest =>
    if c = '\r' then
      match rest with
      | [] => []
      | d :: rest2 => if d = '\n' then rest2 else d :: rest2
    else if c = '\n' then rest
    else c :: rest

theorem parseQuoted_snd_le (cs : Str) : (parseQuoted cs).2.length ≤ cs.length := by
  induction cs using parseQuoted.induct with
  | case1 => simp [parseQuoted]
  | case2 => simp [parseQuoted]
  | case3 rest2 ih =>
    simp only [parseQuoted, if_pos rfl]
    simpa using Nat.le_add_right_of_le (Nat.le_succ_of_le ih)
  | case4 d rest2 hd => simp [parseQuoted, hd]
  | case5 c rest hc ih =>
    rw [parseQuoted.eq_def]
    simp only [hc, if_false, List.length_cons]
    omega

theorem parseBare_snd_le (cs : Str) : (parseBare cs).2.length ≤ cs.length := by
  induction cs using parseBare.induct with
  | case1 => simp [parseBare]
  | case2 c rest hs => simp [parseBare, hs]
  | case3 c rest hs ih =>
    rw [parseBare.eq_def]
    simp only [hs, Bool.false_eq_true, if_false, List.length_cons]
    omega

theorem parseField_snd_le (cs : Str) : (parseField cs).2.length ≤ cs.length := by
  cases cs with
  | nil => simp [parseField, parseBare]
  | cons c rest =>
    by_cases hc : c = '"'
    · subst hc
      simpa [parseField] using Nat.le_succ_of_le (parseQuoted_snd_le rest)
    · simpa [parseField, hc] using parseBare_snd_le (c :: rest)

theorem eatEOL_le (cs : Str) : (eatEOL cs).length ≤ cs.length := by
  cases cs with
  | nil => simp [eatEOL]
  | cons c rest =>
    by_cases hc : c = '\r'
    · subst hc
      cases rest with
      | nil => simp [eatEOL]
      | cons d rest2 =>
        by_cases hd : d = '\n' <;> simp [eatEOL, hd] <;> omega
    · by_cases hc2 : c = '\n' <;> simp [eatEOL, hc, hc2]

theorem eatEOL_lt (c : Char) (rest : Str) (h : (c = '\r' || c = '\n') = true) :
    (eatEOL (c :: rest)).length < (c :: rest).length := by
  rcases Bool.or_eq_true_iff.mp h with h | h
  · rw [decide_eq_true_iff] at h
    subst h
    cases rest with
    | nil => simp [eatEOL]
    | cons d rest2 =>
      by_cases hd : d = '\n' <;> simp [eatEOL, hd] <;> omega
  · rw [decide_eq_true_iff] at h
    subst h
    by_cases hc : ('\n' : Char) = '\r' <;> simp [eatEOL, hc]

theorem parseField_progress (c : Char) (rest : Str) :
    (parseField (c :: rest)).2.length < (c :: rest).length ∨
    (parseField (c :: rest) = ([], c :: rest) ∧ isStopChar c = true) := by
  by_cases hc : c = '"'
  · subst hc
    left
    simpa [parseField] using Nat.lt_succ_of_le (parseQuoted_snd_le rest)
  · rw [show parseField (c :: rest) = parseBare (c :: rest) by simp [parseField, hc]]
    by_cases hs : isStopChar c
    · right
      exact ⟨by simp [parseBare, hs], hs⟩
    · left
      simp only [parseBare, hs, Bool.false_eq_true, if_false]
      exact Nat.lt_succ_of_le (parseBare_snd_le rest)

/-- Parse the comma-separated fields of one record, then consume its
terminator.  Auxiliary to `parseRecords`. -/
def parseRecordAux (cs : Str) : List Str × Str :=
  match h : (parseField cs).2 with
  | ',' :: rest =>
    let q := parseRecordAux rest
    ((parseField cs).1 :: q.1, q.2)
  | _ => ([(parseField cs).1], eatEOL (parseField cs).2)
termination_by cs.length
decreasing_by
  have hle := parseField_snd_le cs
  rw [h] at hle
  simp only [List.length_cons] at hle
  omega

theorem parseRecordAux_snd_le (cs : Str) :
    (parseRecordAux cs).2.length ≤ cs.length := by
  induction cs using parseRecordAux.induct with
  | case1 cs rest h ih =>
    have hle := parseField_snd_le cs
    rw [h] at hle
    simp only [List.length_cons] at hle
    rw [parseRecordAux, h]
    simpa using le_trans ih (by omega)
  | case2 cs h =>
    rw [parseRecordAux]
    split
    · rename_i rest heq
      exact absurd heq (h rest)
    · exact le_trans (eatEOL_le _) (parseField_snd_le cs)

theorem parseRecordAux_snd_lt (cs : Str) (hne : cs ≠ []) :
    (parseRecordAux cs).2.length < cs.length := by
  cases cs with
  | nil => exact absurd rfl hne
  | cons c rest =>
    rw [parseRecordAux]
    split
    · rename_i rest' heq
      have hle := parseField_snd_le (c :: rest)
      rw [heq] at hle
      have hq := parseRecordAux_snd_le rest'
      simp only [List.length_cons] at hle ⊢
      simpa using by omega
    · rename_i hnc
      rcases parseField_progress c rest with hp | ⟨hp, hstop⟩
      · have he := eatEOL_le (parseField (c :: rest)).2
        simp only [List.length_cons] at hp ⊢
        omega
      · have hcne : c ≠ ',' := by
          intro hc
          subst hc
          exact hnc rest (by rw [hp])
        have hcr : (c = '\r' || c = '\n') = true := by
          simp only [isStopChar] at hstop
          rcases Bool.or_eq_true_iff.mp hstop with h | h
          · rcases Bool.or_eq_true_iff.mp h with h | h
            · exact absurd (decide_eq_true_iff.mp h) hcne
            · simp [decide_eq_true_iff.mp h]
          · simp [decide_eq_true_iff.mp h]
        rw [hp]
        exact eatEOL_lt c rest hcr

/-- Parse a CSV file into its records, skipping blank lines (which
`csv.reader` yields as empty rows and `csv.DictReader` discards). -/
def parseRecords (cs : Str) : List (List Str) :=
  match cs with
  | [] => []
  | c :: rest =>
    if c = '\r' || c = '\n' then parseRecords (eatEOL (c :: rest))
    else (parseRecordAux (c :: rest)).1 :: parseRecords (parseRecordAux (c :: rest)).2
termination_by cs.length
decreasing_by
  · exact eatEOL_lt _ _ (by assumption)
  · exact parseRecordAux_snd_lt _ (by simp)

/-- What may legally follow a serialized field: end of input or a stop
character (comma or record terminator). -/
def stopOkB : Str → Bool
  | [] => true
  | c :: _ => isStopChar c

theorem isStopChar_ne_quote {c : Char} (h : isStopChar c = true) : c ≠ '"' := by
  intro hc
  subst hc
  exact absurd h (by decide)

theorem stopOkB_head_ne_quote {rest : Str} (h : stopOkB rest = true) :
    rest.head? ≠ some '"' := by
  cases rest with
  | nil => simp
  | cons c rs =>
    simp only [List.head?_cons, ne_eq, Option.some.injEq]
    exact isStopChar_ne_quote h

theorem parseQuoted_esc (f : Str) : ∀ rest : Str, rest.head? ≠ some '"' →
    parseQuoted (escField f ++ ('"' :: rest)) = (f, rest) := by
  induction f with
  | nil =>
    intro rest hr
    rw [escField, List.nil_append, parseQuoted.eq_def]
    simp only [if_pos rfl]
    cases rest with
    | nil => rfl
    | cons d rest2 =>
      have hd : d ≠ '"' := by
        intro hd
        exact hr (by rw [hd]; rfl)
      simp [hd]
  | cons c cf ih =>
    intro rest hr
    by_cases hc : c = '"'
    · subst hc
      rw [escField]
      simp only [if_pos rfl, List.cons_append]
      rw [parseQuoted.eq_def]
      simp [ih rest hr]
    · rw [escField]
      simp only [hc, if_false, List.cons_append]
      rw [parseQuoted.eq_def]
      simp [hc, ih rest hr]

theorem parseBare_clean (f : Str) (hf : ∀ c ∈ f, isStopChar c = false) :
    ∀ rest : Str, stopOkB rest = true → parseBare (f ++ rest) = (f, rest) := by
  induction f with
  | nil =>
    intro rest hr
    cases rest with
    | nil => rfl
    | cons c rs =>
      simp only [stopOkB] at hr
      simp [parseBare, hr, List.nil_append]
  | cons c cf ih =>
    intro rest hr
    have hc := hf c (List.mem_cons_self c cf)
    rw [List.cons_append, parseBare.eq_def]
    simp [hc, ih (fun d hd => hf d (List.mem_cons_of_mem c hd)) rest hr]

theorem needsQuote_false_spec {f : Str} (hq : needsQuote f = false) :
    ∀ c ∈ f, (c = ',' ∨ c = '"' ∨ c = '\r' ∨ c = '\n') → False := by
  intro c hc hor
  rw [needsQuote, List.any_eq_false] at hq
  have := hq c hc
  rcases hor with h | h | h | h <;> simp [h] at this

theorem parseField_write (f rest : Str) (hrest : stopOkB rest = true) :
    parseField (writeField f ++ rest) = (f, rest) := by
  by_cases hq : needsQuote f
  · have hw : writeField f ++ rest = '"' :: (escField f ++ ('"' :: rest)) := by
      simp [writeField, hq, List.append_assoc]
    rw [hw, parseField]
    simp only [if_pos rfl]
    exact parseQuoted_esc f rest (stopOkB_head_ne_quote hrest)
  · rw [Bool.not_eq_true] at hq
    have hw : writeField f = f := by simp [writeField, hq]
    rw [hw]
    cases f with
    | nil =>
      cases rest with
      | nil => rfl
      | cons c rs =>
        simp only [stopOkB] at hrest
        have hc := isStopChar_ne_quote hrest
        rw [List.nil_append, parseField]
        simp [hc, parseBare, hrest]
    | cons c cf =>
      have hcq : c ≠ '"' := fun h =>
        needsQuote_false_spec hq c (List.mem_cons_self c cf) (Or.inr (Or.inl h))
      rw [List.cons_append, parseField]
      simp only [hcq, if_false]
      rw [← List.cons_append]
      exact parseBare_clean (c :: cf)
        (fun d hd => by
          rw [Bool.eq_false_iff]
          intro hds
          apply needsQuote_false_spec hq d hd
          simp only [isStopChar] at hds
          rcases Bool.or_eq_true_iff.mp hds with h | h
          · rcases Bool.or_eq_true_iff.mp h with h | h
            · exact Or.inl (decide_eq_true_iff.mp h)
            · exact Or.inr (Or.inr (Or.inl (decide_eq_true_iff.mp h)))
          · exact Or.inr (Or.inr (Or.inr (decide_eq_true_iff.mp h))))
        rest hrest

theorem parseRecordAux_write : ∀ (r : List Str), r ≠ [] → ∀ tail : Str,
    parseRecordAux (joinFields r ++ ('\r' :: '\n' :: tail)) = (r, tail) := by
  intro r
  induction r with
  | nil => exact fun h => absurd rfl h
  | cons f fs ih =>
    intro _ tail
    cases fs with
    | nil =>
      have h3 := parseField_write f ('\r' :: '\n' :: tail) rfl
      have hjoin : joinFields [f] = writeField f := rfl
      rw [hjoin, parseRecordAux]
      split
      · rename_i rest' heq
        rw [h3] at heq
        simp at heq
      · rw [h3]
        simp [eatEOL]
    | cons g gs =>
      have h3 := parseField_write f
        (',' :: (joinFields (g :: gs) ++ ('\r' :: '\n' :: tail))) rfl
      have hassoc : joinFields (f :: g :: gs) ++ ('\r' :: '\n' :: tail) =
          writeField f ++ (',' :: (joinFields (g :: gs) ++ ('\r' :: '\n' :: tail))) := by
        have hjoin : joinFields (f :: g :: gs) =
            writeField f ++ (',' :: joinFields (g :: gs)) := rfl
        rw [hjoin]
        simp [List.append_assoc]
      rw [hassoc, parseRecordAux]
      split
      · rename_i rest' heq
        rw [h3] at heq
        simp only [List.cons.injEq] at heq
        rw [h3, ← heq.2, ih (List.cons_ne_nil g gs) tail]
      · rename_i hnc
        exact absurd (by rw [h3]) (hnc (joinFields (g :: gs) ++ ('\r' :: '\n' :: tail)))

theorem joinFields_head_safe (f : Str) (fs : List Str) (hfs : fs ≠ []) :
    ∃ c cs, joinFields (f :: fs) = c :: cs ∧ (c = '\r' || c = '\n') = false := by
  cases fs with
  | nil => exact absurd rfl hfs
  | cons g gs =>
    rw [show joinFields (f :: g :: gs) =
      writeField f ++ (',' :: joinFields (g :: gs)) from rfl]
    cases hw : writeField f with
    | nil =>
      exact ⟨',', joinFields (g :: gs), by simp [hw], by decide⟩
    | cons c cs0 =>
      refine ⟨c, cs0 ++ (',' :: joinFields (g :: gs)), by simp [hw], ?_⟩
      by_cases hq : needsQuote f
      · have hc : c = '"' := by
          rw [writeField, if_pos hq] at hw
          exact (List.cons.injEq _ _ _ _ ▸ hw).1.symm
        subst hc
        decide
      · rw [Bool.not_eq_true] at hq
        have hf : f = c :: cs0 := by
          rw [writeField, hq] at hw
          simpa using hw
      -- `c` is a character of `f`, which contains no CR/LF since it
      -- needed no quoting
        have h1 : ¬(c = '\r') := fun h =>
          needsQuote_false_spec hq c (hf ▸ List.mem_cons_self c cs0)
            (Or.inr (Or.inr (Or.inl h)))
        have h2 : ¬(c = '\n') := fun h =>
          needsQuote_false_spec hq c (hf ▸ List.mem_cons_self c cs0)
            (Or.inr (Or.inr (Or.inr h)))
        simp [h1, h2]

theorem parseRecords_append (r : List Str) (h2 : 2 ≤ r.length) (restFile : Str) :
    parseRecords (writeRecord r ++ restFile) = r :: parseRecords restFile := by
  match r, h2 with
  | f :: g :: gs, _ =>
    obtain ⟨c, cs, hj, hc⟩ := joinFields_head_safe f (g :: gs) (by simp)
    have hcs : writeRecord (f :: g :: gs) ++ restFile =
        c :: (cs ++ ('\r' :: '\n' :: restFile)) := by
      rw [writeRecord, hj]
      simp [List.append_assoc]
    rw [hcs, parseRecords]
    rw [if_neg (by simp only [hc]; exact Bool.false_ne_true)]
    have hback : c :: (cs ++ ('\r' :: '\n' :: restFile)) =
        joinFields (f :: g :: gs) ++ ('\r' :: '\n' :: restFile) := by
      rw [hj]
      simp
    rw [hback, parseRecordAux_write (f :: g :: gs) (by simp) restFile]

theorem parseRecords_csvFileOf (rows : List (List Str))
    (h : ∀ r ∈ rows, 2 ≤ r.length) :
    parseRecords (csvFileOf rows) = rows := by
  induction rows with
  | nil =>
    rw [show csvFileOf [] = ([] : Str) from rfl, parseRecords]
  | cons r rows ih =>
    rw [csvFileOf, List.map_cons, List.flatten_cons]
    rw [parseRecords_append r (h r (List.mem_cons_self r rows)) _]
    rw [show (rows.map writeRecord).flatten = csvFileOf rows from rfl]
    rw [ih (fun q hq => h q (List.mem_cons_of_mem r hq))]

/-!
## app.py — `log_email_attempt` and the log read-back
-/

/-- Header row of `sent_emails.log.csv`. -/
def logHeader : List Str :=
  [strData "timestamp", strData "recipient", strData "subject",
   strData "status", strData "message"]

/-- `app.log_email_attempt`: append one row to the log file's contents,
writing the header row first when the file is absent or empty (both
modelled as the empty contents); the wall-clock timestamp is `now`. -/
def log_email_attempt (now file recipient subject status message : Str) : Str :=
  file ++
    ((if file.isEmpty then writeRecord logHeader else []) ++
      writeRecord [now, recipient, subject, status, message])

/-- Reading the log back as `stats_route` does: `csv.DictReader` takes the
first record as `fieldnames` and yields each later record as a dict
(here: the header zipped with the row). -/
def readLogEntries (file : Str) : List (List (Str × Str)) :=
  match parseRecords file with
  | [] => []
  | header :: rows => rows.map (fun row => header.zip row)

theorem csvFileOf_append_one (l : List (List Str)) (x : List Str) :
    csvFileOf l ++ writeRecord x = csvFileOf (l ++ [x]) := by
  simp [csvFileOf, List.map_append, List.flatten_append]

theorem csvFileOf_cons_ne_empty (a : List Str) (l : List (List Str)) :
    (csvFileOf (a :: l)).isEmpty = false := by
  rw [show csvFileOf (a :: l) = writeRecord a ++ csvFileOf l from rfl, writeRecord]
  simp

/-- C8: appending a log entry to a well-formed log (or to an absent/empty
log, where the header gets written once) and reading the log back yields
exactly one new row, whose `recipient`, `subject`, `status` and `message`
fields are exactly the values passed in — including fields needing CSV
quoting. -/
theorem log_append_roundtrip (prevRows : List (List Str)) (now r s st m : Str)
    (h : ∀ row ∈ prevRows, row.length = 5) :
    parseRecords (log_email_attempt now (csvFileOf (logHeader :: prevRows)) r s st m)
      = logHeader :: (prevRows ++ [[now, r, s, st, m]]) ∧
    parseRecords (log_email_attempt now [] r s st m)
      = [logHeader, [now, r, s, st, m]] ∧
    readLogEntries (log_email_attempt now (csvFileOf (logHeader :: prevRows)) r s st m)
      = (prevRows ++ [[now, r, s, st, m]]).map (fun row => logHeader.zip row) ∧
    List.lookup (strData "recipient") (logHeader.zip [now, r, s, st, m]) = some r ∧
    List.lookup (strData "subject") (logHeader.zip [now, r, s, st, m]) = some s ∧
    List.lookup (strData "status") (logHeader.zip [now, r, s, st, m]) = some st ∧
    List.lookup (strData "message") (logHeader.zip [now, r, s, st, m]) = some m := by
  have hlens : ∀ q ∈ (logHeader :: prevRows) ++ [[now, r, s, st, m]], 2 ≤ q.length := by
    intro q hq
    rcases List.mem_append.mp hq with hq | hq
    · rcases List.mem_cons.mp hq with hq | hq
      · subst hq; decide
      · rw [h q hq]; omega
    · simp only [List.mem_singleton] at hq
      subst hq
      simp
  have h1 : parseRecords
      (log_email_attempt now (csvFileOf (logHeader :: prevRows)) r s st m)
      = logHeader :: (prevRows ++ [[now, r, s, st, m]]) := by
    rw [log_email_attempt, csvFileOf_cons_ne_empty]
    simp only [Bool.false_eq_true, if_false, List.nil_append]
    rw [csvFileOf_append_one, parseRecords_csvFileOf _ hlens]
    simp
  refine ⟨h1, ?_, ?_, rfl, rfl, rfl, rfl⟩
  · rw [log_email_attempt]
    simp only [List.isEmpty_nil, if_true, List.nil_append]
    rw [show writeRecord logHeader ++ writeRecord [now, r, s, st, m]
        = csvFileOf [logHeader, [now, r, s, st, m]] by
      simp [csvFileOf]]
    rw [parseRecords_csvFileOf]
    intro q hq
    rcases List.mem_cons.mp hq with hq | hq
    · subst hq; decide
    · simp only [List.mem_singleton] at hq
      subst hq
      simp
  · rw [readLogEntries, h1]

/-- Witness for C8: one prior data row; the appended message needs CSV
quoting (it contains a comma and double quotes). -/
theorem log_append_roundtrip_witness :
    parseRecords (log_email_attempt (strData "2025-01-02 00:00:00")
        (csvFileOf (logHeader ::
          [[strData "2025-01-01 00:00:00", strData "a@x.com", strData "Hi",
            strData "Sent", strData "ok"]]))
        (strData "b@y.com") (strData "Re: you") (strData "Failed")
        (strData "boom, \"quoted\" text"))
      = logHeader ::
        ([[strData "2025-01-01 00:00:00", strData "a@x.com", strData "Hi",
           strData "Sent", strData "ok"]] ++
         [[strData "2025-01-02 00:00:00", strData "b@y.com", strData "Re: you",
           strData "Failed", strData "boom, \"quoted\" text"]]) :=
  (log_append_roundtrip
    [[strData "2025-01-01 00:00:00", strData "a@x.com", strData "Hi",
      strData "Sent", strData "ok"]]
    (strData "2025-01-02 00:00:00") (strData "b@y.com") (strData "Re: you")
    (strData "Failed") (strData "boom, \"quoted\" text") (by decide)).1

end ReachCraft
